import Mathlib

/-!
# oc-accel host tools: image-filter demo and register poke

Shallow embedding of

* `actions/hls_image_filter/sw/snap_image_filter.c` (`call_FPGA_Action`, `main`)
* `software/tools/ocaccel_poke.c` (`main`, from the first statement after option parsing)

Both programs are sequential orchestration code around an external accelerator
library.  A run is embedded as the list of library / libc calls it issues (in
program order, with the arguments the source passes) together with the way the
process ends.  Everything the external world decides (whether an allocation
succeeds, what a register read delivers, the job return code) is an explicit
environment argument.  External calls are assumed to return to the caller.
-/

/-! ## Image-filter tool -/

namespace ImageFilter

/-- Handle returned by the accelerator library: `NULL` or a live object. -/
inductive Ptr where
  | null
  | live
  deriving DecidableEq, Repr

/-- The part of `struct image_filtering_job` that `snap_prepare_image_filter` fills in. -/
structure Job where
  size_in : Nat
  size_out : Nat
  totalFileSizeFromHeader : Nat
  relFirstPixelLoc : Nat
  pixel_map_type : Nat
  deriving DecidableEq, Repr

/-- Calls issued by `call_FPGA_Action`, in the order of the source text. -/
inductive Event where
  | snap_malloc (size : Nat)
  | memcpy_actionBuff (n : Nat)
  | snap_card_alloc_dev (device : String)
  | err_open_card (card_no : Int)
  | snap_card_free (card : Ptr)
  | free_actionBuff
  | snap_attach_action (card : Ptr) (timeout : Nat)
  | snap_action_assign_irq (action : Ptr)
  | err_attach_action (card_no : Int)
  | snap_detach_action (action : Ptr)
  | memset_addr_out (n : Nat)
  | start_chrono
  | snap_action_sync_execute_job (action : Ptr) (job : Job) (timeout : Nat)
  | stop_chrono
  | fopen (path : String)
  | fwrite_header (size : Nat)
  | fwrite_addr_out (size : Nat)
  | fclose
  | free_addr_out
  deriving DecidableEq, Repr

/-- How `call_FPGA_Action` ends: `exit (code)` or `return (rc)`. -/
inductive Outcome where
  | exit (code : Int)
  | ret (rc : Int)
  deriving DecidableEq, Repr

/-- Header of the bitmap: the `image_size_bytes` field read at line 112 and the
`sizeof (Image->header)` object bytes that `fwrite (Image, ...)` copies. -/
structure BMPHeader where
  image_size_bytes : Nat
  bytes : List Nat
  deriving DecidableEq, Repr

/-- Decoded bitmap handed to `call_FPGA_Action`. -/
structure BMPImage where
  header : BMPHeader
  data : List Nat
  deriving DecidableEq, Repr

/-- Fields of the global `params` that `call_FPGA_Action` and `main` use. -/
structure STRparam where
  output : Option String
  card_no : Int
  deriving DecidableEq, Repr

/-- What the outside world decides during one run. -/
structure Env where
  /-- Value of the constant `SNAP_ACTION_DONE_IRQ` (declared in libosnap.h). -/
  action_irq : Nat
  /-- Does the first `snap_malloc` return a buffer. -/
  actionBuff_ok : Bool
  /-- Result of `snap_card_alloc_dev`. -/
  card : Ptr
  /-- Result of `snap_attach_action`. -/
  action : Ptr
  /-- Does the second `snap_malloc` return a buffer. -/
  addr_out_ok : Bool
  /-- Return code of `snap_action_sync_execute_job`. -/
  rc : Int
  /-- Byte the accelerator stores at offset `k` of the output buffer, if any. -/
  dma : Nat → Option Nat
  /-- Byte found at offset `k` from `addr_out` when `k` is past the buffer. -/
  past : Nat → Nat

/-- Result of a run: the calls issued, how it ended, and the file written. -/
structure Result where
  trace : List Event
  outcome : Outcome
  file : Option (String × List Nat)

/-- Line 123: `dataSize = (imageSize / 64)*64+64;` on `uint32_t`. -/
def dataSize (imageSize : Nat) : Nat :=
  ((imageSize / 64) * 64 + 64) % 2 ^ 32

/-- Lines 132-135: the two `snprintf (device, sizeof(device)-1, ...)` calls;
`snprintf` with size 127 keeps at most 126 characters. -/
def deviceName (card_no : Int) : String :=
  if card_no = 0 then
    String.mk ("IBM,oc-snap".toList.take 126)
  else
    String.mk (("/dev/ocxl/IBM,oc-snap.000" ++ toString card_no ++ ":00:00.1.0").toList.take 126)

/-- The `n` bytes that `fwrite (addr_out, n, 1, f)` reads starting at `addr_out`. -/
def readBytes (buf : List Nat) (past : Nat → Nat) (n : Nat) : List Nat :=
  (List.range n).map (fun k => buf.getD k (past k))

/-- Lines 184-188: detach, free the card, free both buffers. -/
def teardown (env : Env) : List Event :=
  [Event.snap_detach_action env.action, Event.snap_card_free env.card,
   Event.free_actionBuff, Event.free_addr_out]

/-- Lines 99-191 of snap_image_filter.c.  The source does not test the result of
`fopen`; `file` is what the two `fwrite` calls put into the stream it returns. -/
def call_FPGA_Action (Image : BMPImage) (params : STRparam) (env : Env) : Result :=
  let imageSize := Image.header.image_size_bytes % 2 ^ 32
  let dataSize := dataSize imageSize
  let t1 := [Event.snap_malloc dataSize]
  if env.actionBuff_ok = false then
    { trace := t1, outcome := Outcome.exit 0, file := none }
  else
    let t2 := t1 ++ [Event.memcpy_actionBuff dataSize,
                     Event.snap_card_alloc_dev (deviceName params.card_no)]
    if env.card = Ptr.null then
      { trace := t2 ++ [Event.err_open_card params.card_no, Event.snap_card_free env.card,
                        Event.free_actionBuff],
        outcome := Outcome.exit 0, file := none }
    else
      let t3 := t2 ++ [Event.snap_attach_action env.card 60] ++
        (if env.action_irq ≠ 0 then [Event.snap_action_assign_irq env.action] else [])
      if env.action = Ptr.null then
        { trace := t3 ++ [Event.err_attach_action params.card_no,
                          Event.snap_detach_action env.action, Event.snap_card_free env.card],
          outcome := Outcome.exit 0, file := none }
      else
        let t4 := t3 ++ [Event.snap_malloc dataSize]
        if env.addr_out_ok = false then
          { trace := t4, outcome := Outcome.exit 0, file := none }
        else
          let job : Job :=
            { size_in := dataSize, size_out := dataSize, totalFileSizeFromHeader := dataSize,
              relFirstPixelLoc := 0, pixel_map_type := 0 }
          let t5 := t4 ++ [Event.memset_addr_out dataSize, Event.start_chrono,
                           Event.snap_action_sync_execute_job env.action job 6000,
                           Event.stop_chrono]
          let outBuf := (List.range dataSize).map (fun k => (env.dma k).getD 0)
          match params.output with
          | some path =>
            { trace := t5 ++ [Event.fopen path, Event.fwrite_header Image.header.bytes.length,
                              Event.fwrite_addr_out imageSize, Event.fclose] ++ teardown env,
              outcome := Outcome.ret env.rc,
              file := some (path, Image.header.bytes ++ readBytes outBuf env.past imageSize) }
          | none =>
            { trace := t5 ++ teardown env, outcome := Outcome.ret env.rc, file := none }

/-- Exit status of the process: `main` returns what `call_FPGA_Action` returns (line 212-214). -/
def exitStatus (r : Result) : Int :=
  match r.outcome with
  | Outcome.exit code => code
  | Outcome.ret rc => rc

/-- Is the event the action-attach call. -/
def Event.isAttach : Event → Bool
  | Event.snap_attach_action _ _ => true
  | _ => false

/-- Is the event the job-submission call. -/
def Event.isJob : Event → Bool
  | Event.snap_action_sync_execute_job _ _ _ => true
  | _ => false

end ImageFilter

/-! ## Register poke tool -/

namespace Poke

/-- Value of `EXIT_SUCCESS` (stdlib.h). -/
def EXIT_SUCCESS : Int := 0

/-- Value of `EXIT_FAILURE` (stdlib.h). -/
def EXIT_FAILURE : Int := 1

/-- Variables of `main` once the `getopt_long` loop (lines 76-147) has finished,
together with the two positional arguments as `strtoull` returns them. -/
structure Args where
  card_no : Int
  cpu : Int
  width : Int
  rd_back : Nat
  quiet : Nat
  count : Nat
  interval : Nat
  addr : Nat
  value : Nat

/-- What the accelerator library returns to the calls of one loop iteration. -/
structure Resp where
  /-- Return code of the register write. -/
  wrc : Int
  /-- Value of `errno` after the register write. -/
  xerrno : Int
  /-- Return code of the register read. -/
  rrc : Int
  /-- Word the register read stores through its `data` pointer. -/
  rdata : Nat

/-- What the outside world decides during one run. -/
structure Env where
  /-- Result of `ocaccel_action_trace_enabled ()`. -/
  verbose_flag : Int
  /-- Does `ocaccel_card_alloc_dev` return a card. -/
  card_ok : Bool
  /-- Byte order of the host: decides which half of `rbval` the 4-byte store of
  `ocaccel_action_read32 (card, offs, (uint32_t*)&rbval)` overwrites. -/
  bigEndian : Bool
  /-- Library responses in iteration `i` of the loop. -/
  reply : Nat → Resp

/-- Calls issued by `main`; register accesses and sleeps carry the loop index. -/
inductive Event where
  | switch_cpu (cpu : Int) (verbose_flag : Int)
  | err_invalid_card (card_no : Int)
  | usage
  | card_alloc_dev (device : String)
  | err_open_card (card_no : Int)
  | write32 (i : Nat) (offs : Nat) (data : Nat)
  | read32 (i : Nat) (offs : Nat)
  | write64 (i : Nat) (offs : Nat) (data : Nat)
  | read64 (i : Nat) (offs : Nat)
  | err_write (val : Nat) (offs : Nat) (xerrno : Int)
  | err_read_back (rbrc : Int)
  | err_post_verify (val : Nat) (rbval : Nat)
  | usleep (i : Nat) (usec : Nat)
  | card_free
  | stdout (text : String)
  deriving DecidableEq, Repr

/-- A finished run: the calls issued and the argument of the final `exit`. -/
structure Result where
  trace : List Event
  status : Int
  deriving DecidableEq, Repr

/-- Lines 161-165: the two `snprintf (device, sizeof (device) - 1, ...)` calls;
`snprintf` with size 127 keeps at most 126 characters. -/
def deviceName (card_no : Int) : String :=
  if card_no = 0 then
    String.mk ("IBM,oc-accel".toList.take 126)
  else
    String.mk (("/dev/ocxl/IBM,oc-accel.000" ++ toString card_no ++ ":00:00.1.0").toList.take 126)

/-- Lower-case hexadecimal digits of `n`, as printf's `%x` prints them. -/
def hex (n : Nat) : String :=
  String.mk (Nat.toDigits 16 n)

/-- Hexadecimal digits of `n` zero-padded to at least `w` characters (`%0wx`). -/
def hexPad (w : Nat) (n : Nat) : String :=
  String.mk (List.replicate (w - (Nat.toDigits 16 n).length) '0' ++ Nat.toDigits 16 n)

/-- Line 190: `printf ("Poke OCACCEL Global regs: 0x%x, 0x%lx\n", offs, val)`. -/
def pokeLine (offs val : Nat) : String :=
  "Poke OCACCEL Global regs: 0x" ++ hex offs ++ ", 0x" ++ hex val ++ "\n"

/-- Line 236: `printf ("[%08x] %016llx\n", offs, (long long)val)`. -/
def finalLine (offs val : Nat) : String :=
  "[" ++ hexPad 8 offs ++ "] " ++ hexPad 16 val ++ "\n"

/-- Effect on the 8-byte object `rbval` of a 4-byte store of `w` at its address:
the low half changes on a little-endian host, the high half on a big-endian one. -/
def store32 (bigEndian : Bool) (rbval : Nat) (w : Nat) : Nat :=
  if bigEndian then (w % 2 ^ 32) * 2 ^ 32 + rbval % 2 ^ 32
  else (rbval / 2 ^ 32) * 2 ^ 32 + w % 2 ^ 32

/-- Value of `rbval` after the `switch (width)` statement of one iteration
(lines 177-199): untouched without read-back, the 4-byte store for width 32,
the full 8-byte store on the default / 64 path. -/
def readBack (a : Args) (env : Env) (rbval : Nat) (r : Resp) : Nat :=
  if a.rd_back = 0 then rbval
  else if a.width = 32 then store32 env.bigEndian rbval r.rdata
  else r.rdata % 2 ^ 64

/-- Calls issued by the `switch (width)` statement in iteration `i` (lines 177-199). -/
def accessEvents (a : Args) (offs val : Nat) (i : Nat) : List Event :=
  if a.width = 32 then
    [Event.write32 i offs (val % 2 ^ 32)] ++
      (if a.rd_back ≠ 0 then [Event.read32 i offs] else [])
  else
    [Event.stdout (pokeLine offs val), Event.write64 i offs val] ++
      (if a.rd_back ≠ 0 then [Event.read64 i offs] else [])

/-- Lines 233-239: free the card, print the final line unless quiet, exit with success. -/
def finish (a : Args) (offs val : Nat) : Result :=
  { trace := [Event.card_free] ++
      (if a.quiet = 0 then [Event.stdout (finalLine offs val)] else []),
    status := EXIT_SUCCESS }

/-- Prefix the calls `t` to a run. -/
def Result.after (t : List Event) (r : Result) : Result :=
  { trace := t ++ r.trace, status := r.status }

/-- Lines 176-239: the `for (i = 0; i < count; i++)` loop and what follows it.
`n` is the number of iterations still to run (`count - i`), `rbval` the current
value of the variable of that name. -/
def loop (a : Args) (env : Env) (offs val : Nat) : Nat → Nat → Nat → Result
  | 0, _, _ => finish a offs val
  | n + 1, i, rbval =>
    let r := env.reply i
    let rbval1 := readBack a env rbval r
    let t := accessEvents a offs val i
    if r.wrc ≠ 0 then
      { trace := t ++ [Event.err_write val offs r.xerrno, Event.card_free],
        status := EXIT_FAILURE }
    else if a.rd_back ≠ 0 ∧ r.rrc ≠ 0 then
      { trace := t ++ [Event.err_read_back r.rrc, Event.card_free],
        status := EXIT_FAILURE }
    else if a.rd_back ≠ 0 ∧ val ≠ rbval1 then
      { trace := t ++ [Event.err_post_verify val rbval1, Event.card_free],
        status := EXIT_FAILURE }
    else
      Result.after (t ++ (if a.interval ≠ 0 then [Event.usleep i a.interval] else []))
        (loop a env offs val n (i + 1) rbval1)

/-- Lines 149-239 of ocaccel_poke.c. -/
def main (a : Args) (env : Env) : Result :=
  let offs := a.addr % 2 ^ 32
  let val := a.value % 2 ^ 64
  let rbval := 2 ^ 64 - 1 - val
  let t0 := [Event.switch_cpu a.cpu env.verbose_flag]
  if a.card_no < 0 ∨ a.card_no > 4 then
    { trace := t0 ++ [Event.err_invalid_card a.card_no, Event.usage],
      status := EXIT_FAILURE }
  else
    let t1 := t0 ++ [Event.card_alloc_dev (deviceName a.card_no)]
    if env.card_ok = false then
      { trace := t1 ++ [Event.err_open_card a.card_no], status := EXIT_FAILURE }
    else
      Result.after t1 (loop a env offs val a.count 0 rbval)

/-- Loop index carried by a register access or a sleep. -/
def Event.iter : Event → Option Nat
  | Event.write32 i _ _ => some i
  | Event.read32 i _ => some i
  | Event.write64 i _ _ => some i
  | Event.read64 i _ => some i
  | Event.usleep i _ => some i
  | _ => none

/-- Is the event a register write. -/
def Event.isWrite : Event → Bool
  | Event.write32 _ _ _ => true
  | Event.write64 _ _ _ => true
  | _ => false

/-- Is the event a register read. -/
def Event.isRead : Event → Bool
  | Event.read32 _ _ => true
  | Event.read64 _ _ => true
  | _ => false

/-- Is the event a call of `usleep`. -/
def Event.isSleep : Event → Bool
  | Event.usleep _ _ => true
  | _ => false

/-- Is the event the card-open call. -/
def Event.isCardOpen : Event → Bool
  | Event.card_alloc_dev _ => true
  | _ => false

end Poke

/-! ## Sample inputs -/

namespace ImageFilter

/-- A bitmap whose header announces `size` bytes of pixel data. -/
def sampleImage (size : Nat) : BMPImage :=
  { header := { image_size_bytes := size, bytes := [66, 77] ++ List.replicate 52 0 },
    data := List.replicate size 255 }

/-- An environment in which every external call succeeds with return code `rc`. -/
def sampleEnv (rc : Int) : Env :=
  { action_irq := 1, actionBuff_ok := true, card := Ptr.live, action := Ptr.live,
    addr_out_ok := true, rc := rc, dma := fun k => some (k % 256), past := fun _ => 0 }

/-- The environment of `sampleEnv 0` except that the card cannot be opened. -/
def noCardEnv : Env :=
  { sampleEnv 0 with card := Ptr.null }

/-- The environment of `sampleEnv 0` except that the action cannot be attached. -/
def noActionEnv : Env :=
  { sampleEnv 0 with action := Ptr.null }

/-- The words of the specification: `d` is the smallest multiple of 64 that is
greater than or equal to `n`, that is, `d` is such a multiple and no smaller
number is. -/
def SmallestMultipleOf64AtLeast (n d : Nat) : Prop :=
  64 ∣ d ∧ n ≤ d ∧ ∀ m, m < d → ¬ (64 ∣ m ∧ n ≤ m)

instance (n d : Nat) : Decidable (SmallestMultipleOf64AtLeast n d) := by
  unfold SmallestMultipleOf64AtLeast
  infer_instance

end ImageFilter

namespace Poke

/-- Value of the variable `rbval` at the top of iteration `i`, in a run that gets
there: `~val` before the first iteration (line 151), then what each `switch`
statement leaves in it. -/
def rbvalAt (a : Args) (env : Env) : Nat → Nat
  | 0 => 2 ^ 64 - 1 - a.value % 2 ^ 64
  | i + 1 => readBack a env (rbvalAt a env i) (env.reply i)

/-- Word handed to the register write: `(uint32_t)val` for width 32, `val` otherwise. -/
def writtenWord (a : Args) : Nat :=
  if a.width = 32 then a.value % 2 ^ 64 % 2 ^ 32 else a.value % 2 ^ 64

/-- Word delivered by the register read: 32 bits for width 32, 64 bits otherwise. -/
def readWord (a : Args) (r : Resp) : Nat :=
  if a.width = 32 then r.rdata % 2 ^ 32 else r.rdata % 2 ^ 64

/-- A card on which every access returns 0 and every read delivers `v`. -/
def healthyEnv (bigEndian : Bool) (v : Nat) : Env :=
  { verbose_flag := 0, card_ok := true, bigEndian := bigEndian,
    reply := fun _ => { wrc := 0, xerrno := 0, rrc := 0, rdata := v } }

/-- A card that is healthy except that the read of iteration 1 delivers `v + 1`. -/
def glitchEnv (v : Nat) : Env :=
  { verbose_flag := 0, card_ok := true, bigEndian := false,
    reply := fun i => { wrc := 0, xerrno := 0, rrc := 0, rdata := if i = 1 then v + 1 else v } }

/-- Arguments of the example scenario: `-w 32 -c 3 -i 0 -r 0x100 0xdeadbeef`. -/
def scenarioArgs : Args :=
  { card_no := 0, cpu := -1, width := 32, rd_back := 1, quiet := 0, count := 3,
    interval := 0, addr := 0x100, value := 0xdeadbeef }

/-- The example scenario at the default width 64, with a 7 microsecond interval. -/
def wideArgs : Args :=
  { scenarioArgs with width := 64, interval := 7 }

end Poke

/-! ## Image-filter tool: buffer size -/

namespace ImageFilter

theorem dataSize_eq_of_le {n : Nat} (h : n ≤ 2 ^ 32 - 65) :
    dataSize n = (n / 64) * 64 + 64 := by
  unfold dataSize
  apply Nat.mod_eq_of_lt
  omega

theorem dataSize_dvd {n : Nat} (h : n ≤ 2 ^ 32 - 65) : 64 ∣ dataSize n := by
  rw [dataSize_eq_of_le h]
  exact ⟨n / 64 + 1, by ring⟩

theorem dataSize_gt {n : Nat} (h : n ≤ 2 ^ 32 - 65) : n < dataSize n := by
  rw [dataSize_eq_of_le h]
  omega

theorem dataSize_least_above {n : Nat} (h : n ≤ 2 ^ 32 - 65) (m : Nat) (hm : 64 ∣ m)
    (hnm : n < m) : dataSize n ≤ m := by
  rw [dataSize_eq_of_le h]
  obtain ⟨c, rfl⟩ := hm
  omega

theorem trace_head (Image : BMPImage) (params : STRparam) (env : Env) :
    (call_FPGA_Action Image params env).trace.head? =
      some (Event.snap_malloc (dataSize (Image.header.image_size_bytes % 2 ^ 32))) := by
  unfold call_FPGA_Action
  simp only []
  split_ifs
  all_goals first
    | rfl
    | (cases params.output <;> rfl)

/-- When the card does not open, every run ends in `exit (0)` after freeing the
pixel buffer, with no attach and no job-submission call. -/
theorem open_failure_exit_zero (Image : BMPImage) (params : STRparam) (env : Env)
    (hb : env.actionBuff_ok = true) (hc : env.card = Ptr.null) :
    (call_FPGA_Action Image params env).outcome = Outcome.exit 0 ∧
      (∀ e ∈ (call_FPGA_Action Image params env).trace, e.isAttach = false ∧ e.isJob = false) := by
  unfold call_FPGA_Action
  simp [hb, hc, Event.isAttach, Event.isJob]

end ImageFilter

/-! ## Image-filter tool: claims -/

namespace ImageFilter

/-- C1 (refuted as stated): for a bitmap announcing 64 bytes of pixel data the
first `snap_malloc` asks for 128 bytes, which is not the smallest multiple of 64
that is at least 64 (64 itself is). -/
theorem C1_counterexample :
    (call_FPGA_Action (sampleImage 64) { output := none, card_no := 0 } (sampleEnv 0)).trace.head?
        = some (Event.snap_malloc 128) ∧
      ¬ SmallestMultipleOf64AtLeast 64 128 := by
  refine ⟨by decide, ?_⟩
  intro h
  exact h.2.2 64 (by decide) ⟨dvd_refl 64, le_refl 64⟩

/-- C1 (amended): for every pixel-data size up to 2^32 - 65 the size requested by
the first `snap_malloc` of `call_FPGA_Action` is the smallest multiple of 64 that is
strictly greater than that size; whenever the size is not itself a multiple of 64
this is also the smallest multiple of 64 greater than or equal to it. -/
theorem C1_dataSize_smallest_multiple_above (Image : BMPImage) (params : STRparam) (env : Env)
    (h : Image.header.image_size_bytes ≤ 2 ^ 32 - 65) :
    ∃ d, (call_FPGA_Action Image params env).trace.head? = some (Event.snap_malloc d) ∧
      64 ∣ d ∧ Image.header.image_size_bytes < d ∧
      (∀ m, 64 ∣ m → Image.header.image_size_bytes < m → d ≤ m) ∧
      (¬ 64 ∣ Image.header.image_size_bytes →
        SmallestMultipleOf64AtLeast Image.header.image_size_bytes d) := by
  have hmod : Image.header.image_size_bytes % 2 ^ 32 = Image.header.image_size_bytes :=
    Nat.mod_eq_of_lt (by omega)
  refine ⟨dataSize Image.header.image_size_bytes, ?_, dataSize_dvd h, dataSize_gt h,
    dataSize_least_above h, ?_⟩
  · rw [trace_head, hmod]
  · intro hnd
    refine ⟨dataSize_dvd h, le_of_lt (dataSize_gt h), ?_⟩
    intro m hlt hm
    rcases Nat.lt_or_eq_of_le hm.2 with hnm | hnm
    · exact absurd (dataSize_least_above h m hm.1 hnm) (by omega)
    · exact hnd (hnm ▸ hm.1)

/-- C1 (amended), instance: 100 bytes of pixel data. -/
theorem C1_dataSize_smallest_multiple_above_witness :
    (100 : Nat) ≤ 2 ^ 32 - 65 ∧
    ∃ d, (call_FPGA_Action (sampleImage 100) { output := none, card_no := 0 }
        (sampleEnv 0)).trace.head? = some (Event.snap_malloc d) ∧
      64 ∣ d ∧ (sampleImage 100).header.image_size_bytes < d ∧
      (∀ m, 64 ∣ m → (sampleImage 100).header.image_size_bytes < m → d ≤ m) ∧
      (¬ 64 ∣ (sampleImage 100).header.image_size_bytes →
        SmallestMultipleOf64AtLeast (sampleImage 100).header.image_size_bytes d) :=
  ⟨by decide, C1_dataSize_smallest_multiple_above (sampleImage 100)
    { output := none, card_no := 0 } (sampleEnv 0) (by decide)⟩

/-- C5 (code evaluated at the failing input): with the card-open call returning no
card, `call_FPGA_Action` issues no attach and no job-submission call, but the process
ends through `exit (0)`, a success status. -/
theorem C5_open_failure_exits_zero :
    (call_FPGA_Action (sampleImage 100) { output := some "out.bmp", card_no := 0 }
        noCardEnv).trace =
      [Event.snap_malloc 128, Event.memcpy_actionBuff 128,
       Event.snap_card_alloc_dev "IBM,oc-snap", Event.err_open_card 0,
       Event.snap_card_free Ptr.null, Event.free_actionBuff] ∧
    (call_FPGA_Action (sampleImage 100) { output := some "out.bmp", card_no := 0 }
        noCardEnv).outcome = Outcome.exit 0 ∧
    exitStatus (call_FPGA_Action (sampleImage 100) { output := some "out.bmp", card_no := 0 }
        noCardEnv) = 0 := by
  decide

/-- C7: when the card opens and the attach call returns no action, the run ends in
an `exit`, the last call before it is `snap_card_free` on the opened card, and no
job-submission call is issued. -/
theorem C7_attach_failure_frees_card (Image : BMPImage) (params : STRparam) (env : Env)
    (hb : env.actionBuff_ok = true) (hc : env.card = Ptr.live) (ha : env.action = Ptr.null) :
    (∃ code, (call_FPGA_Action Image params env).outcome = Outcome.exit code) ∧
      (call_FPGA_Action Image params env).trace.getLast? = some (Event.snap_card_free Ptr.live) ∧
      Event.snap_card_free Ptr.live ∈ (call_FPGA_Action Image params env).trace ∧
      (∀ e ∈ (call_FPGA_Action Image params env).trace, e.isJob = false) ∧
      (call_FPGA_Action Image params env).file = none := by
  unfold call_FPGA_Action
  by_cases hirq : env.action_irq = 0 <;> simp [hb, hc, ha, hirq, Event.isJob]

/-- C7, instance: the sample environment whose attach call fails. -/
theorem C7_attach_failure_frees_card_witness :
    noActionEnv.actionBuff_ok = true ∧ noActionEnv.card = Ptr.live ∧
    noActionEnv.action = Ptr.null ∧
    Event.snap_card_free Ptr.live ∈
      (call_FPGA_Action (sampleImage 100) { output := some "out.bmp", card_no := 2 }
        noActionEnv).trace :=
  ⟨rfl, rfl, rfl, (C7_attach_failure_frees_card (sampleImage 100)
    { output := some "out.bmp", card_no := 2 } noActionEnv rfl rfl rfl).2.2.1⟩

end ImageFilter

/-! ## Register poke tool: the loop -/

namespace Poke

theorem accessEvents_props (a : Args) (offs val i : Nat) (e : Event)
    (he : e ∈ accessEvents a offs val i) :
    (e.iter = none ∨ e.iter = some i) ∧ e.isSleep = false ∧ e.isCardOpen = false := by
  unfold accessEvents at he
  split_ifs at he <;> simp at he <;> rcases he with rfl | rfl | rfl <;>
    simp [Event.iter, Event.isSleep, Event.isCardOpen]

theorem finish_props (a : Args) (offs val : Nat) (e : Event)
    (he : e ∈ (finish a offs val).trace) :
    e.iter = none ∧ e.isSleep = false ∧ e.isCardOpen = false ∧ e.isWrite = false := by
  unfold finish at he
  split_ifs at he <;> simp at he <;> rcases he with rfl | rfl <;>
    simp [Event.iter, Event.isSleep, Event.isCardOpen, Event.isWrite]

/-- The 4-byte store into `rbval = ~val` never produces `val`: the half of `rbval`
that the store leaves alone is the complement of the same half of `val`. -/
theorem store32_not_ne (bigEndian : Bool) (val w : Nat) (hval : val < 2 ^ 64) :
    val ≠ store32 bigEndian (2 ^ 64 - 1 - val) w := by
  unfold store32
  cases bigEndian <;> simp <;> omega

/-- One iteration of the loop either leaves through one of the three failure
exits, or continues with the next index. -/
theorem loop_succ_cases (a : Args) (env : Env) (offs val n i rb : Nat) :
    (((env.reply i).wrc ≠ 0 ∨
        (a.rd_back ≠ 0 ∧ ((env.reply i).rrc ≠ 0 ∨ val ≠ readBack a env rb (env.reply i)))) ∧
      (loop a env offs val (n + 1) i rb).status = EXIT_FAILURE ∧
      ∃ x, x.iter = none ∧ x.isSleep = false ∧ x.isCardOpen = false ∧ x.isWrite = false ∧
        (loop a env offs val (n + 1) i rb).trace =
          accessEvents a offs val i ++ [x, Event.card_free]) ∨
    (((env.reply i).wrc = 0 ∧
        (a.rd_back ≠ 0 → (env.reply i).rrc = 0 ∧ val = readBack a env rb (env.reply i))) ∧
      loop a env offs val (n + 1) i rb =
        Result.after
          (accessEvents a offs val i ++
            (if a.interval ≠ 0 then [Event.usleep i a.interval] else []))
          (loop a env offs val n (i + 1) (readBack a env rb (env.reply i)))) := by
  by_cases h1 : (env.reply i).wrc ≠ 0
  · left
    refine ⟨Or.inl h1, ?_, Event.err_write val offs (env.reply i).xerrno, rfl, rfl, rfl, rfl, ?_⟩
    · rw [loop]; simp only [if_pos h1]
    · rw [loop]; simp only [if_pos h1]
  · by_cases h2 : a.rd_back ≠ 0 ∧ (env.reply i).rrc ≠ 0
    · left
      refine ⟨Or.inr ⟨h2.1, Or.inl h2.2⟩, ?_, Event.err_read_back (env.reply i).rrc,
        rfl, rfl, rfl, rfl, ?_⟩
      · rw [loop]; simp only [if_neg h1, if_pos h2]
      · rw [loop]; simp only [if_neg h1, if_pos h2]
    · by_cases h3 : a.rd_back ≠ 0 ∧ val ≠ readBack a env rb (env.reply i)
      · left
        refine ⟨Or.inr ⟨h3.1, Or.inr h3.2⟩, ?_,
          Event.err_post_verify val (readBack a env rb (env.reply i)), rfl, rfl, rfl, rfl, ?_⟩
        · rw [loop]; simp only [if_neg h1, if_neg h2, if_pos h3]
        · rw [loop]; simp only [if_neg h1, if_neg h2, if_pos h3]
      · right
        refine ⟨⟨not_not.mp h1, ?_⟩, ?_⟩
        · intro hrb
          constructor
          · by_contra hne
            exact h2 ⟨hrb, hne⟩
          · by_contra hne
            exact h3 ⟨hrb, hne⟩
        · rw [loop]; simp only [if_neg h1, if_neg h2, if_neg h3]

/-- Every register access and sleep of `loop n i` carries an index in `[i, i + n)`,
and the loop never opens a card. -/
theorem loop_iter_bounds (a : Args) (env : Env) (offs val : Nat) :
    ∀ n i rb e, e ∈ (loop a env offs val n i rb).trace →
      (∀ j, e.iter = some j → i ≤ j ∧ j < i + n) ∧ e.isCardOpen = false := by
  intro n
  induction n with
  | zero =>
    intro i rb e he
    rw [loop] at he
    have h := finish_props a offs val e he
    simp [h.1, h.2.2.1]
  | succ n ih =>
    intro i rb e he
    rcases loop_succ_cases a env offs val n i rb with ⟨_, _, x, hx1, _, hx3, _, htr⟩ | ⟨_, heq⟩
    · rw [htr] at he
      simp only [List.mem_append, List.mem_cons, List.mem_singleton, List.not_mem_nil,
        or_false] at he
      rcases he with h | rfl | rfl
      · have hp := accessEvents_props a offs val i e h
        refine ⟨?_, hp.2.2⟩
        intro j hj
        rcases hp.1 with h0 | h0
        · rw [h0] at hj; exact absurd hj (by simp)
        · rw [h0] at hj
          have : i = j := Option.some.inj hj
          omega
      · simp [hx1, hx3]
      · simp [Event.iter, Event.isCardOpen]
    · rw [heq] at he
      simp only [Result.after, List.mem_append] at he
      rcases he with (h | h) | h
      · have hp := accessEvents_props a offs val i e h
        refine ⟨?_, hp.2.2⟩
        intro j hj
        rcases hp.1 with h0 | h0
        · rw [h0] at hj; exact absurd hj (by simp)
        · rw [h0] at hj
          have : i = j := Option.some.inj hj
          omega
      · split_ifs at h
        · simp only [List.mem_singleton] at h
          subst h
          refine ⟨?_, rfl⟩
          intro j hj
          have : i = j := Option.some.inj hj
          omega
        · simp at h
      · have hr := ih (i + 1) _ e h
        refine ⟨?_, hr.2⟩
        intro j hj
        have := hr.1 j hj
        omega

/-- With read-back requested, a failing access in an iteration that is reached
ends the run there: failure status, nothing issued for a later index, no sleep in
that iteration. -/
theorem loop_failure_stops (a : Args) (env : Env) (offs val : Nat) (hval : val < 2 ^ 64)
    (hrb : a.rd_back ≠ 0) (k : Nat)
    (hfail : (env.reply k).wrc ≠ 0 ∨ (env.reply k).rrc ≠ 0 ∨
      (a.width ≠ 32 → (env.reply k).rdata % 2 ^ 64 ≠ val)) :
    ∀ n i rb, (a.width = 32 → rb = 2 ^ 64 - 1 - val) →
      (∃ e ∈ (loop a env offs val n i rb).trace, e.iter = some k) →
      (loop a env offs val n i rb).status = EXIT_FAILURE ∧
      (∀ e ∈ (loop a env offs val n i rb).trace, ∀ j, e.iter = some j → j ≤ k) ∧
      (∀ e ∈ (loop a env offs val n i rb).trace, e.isSleep = true → e.iter ≠ some k) := by
  intro n
  induction n with
  | zero =>
    intro i rb _ hreach
    obtain ⟨e, he, hk⟩ := hreach
    rw [loop] at he
    have h := (finish_props a offs val e he).1
    rw [h] at hk
    exact absurd hk (by simp)
  | succ n ih =>
    intro i rb hinv hreach
    obtain ⟨e0, he0, hk0⟩ := hreach
    have hb0 := (loop_iter_bounds a env offs val (n + 1) i rb e0 he0).1 k hk0
    rcases loop_succ_cases a env offs val n i rb with
      ⟨_, hst, x, hx1, hx2, _, _, htr⟩ | ⟨hpass, heq⟩
    · -- the run leaves through a failure exit in iteration i, hence k = i
      have hki : k = i := by
        rw [htr] at he0
        simp only [List.mem_append, List.mem_cons, List.mem_singleton, List.not_mem_nil,
          or_false] at he0
        rcases he0 with h | rfl | rfl
        · rcases (accessEvents_props a offs val i e0 h).1 with h0 | h0
          · rw [h0] at hk0; exact absurd hk0 (by simp)
          · rw [h0] at hk0; exact (Option.some.inj hk0).symm
        · rw [hx1] at hk0; exact absurd hk0 (by simp)
        · exact absurd hk0 (by simp [Event.iter])
      refine ⟨hst, ?_, ?_⟩
      · intro e he j hj
        have := (loop_iter_bounds a env offs val (n + 1) i rb e he).1 j hj
        rw [htr] at he
        simp only [List.mem_append, List.mem_cons, List.mem_singleton, List.not_mem_nil,
          or_false] at he
        rcases he with h | rfl | rfl
        · rcases (accessEvents_props a offs val i e h).1 with h0 | h0
          · rw [h0] at hj; exact absurd hj (by simp)
          · rw [h0] at hj
            have : i = j := Option.some.inj hj
            omega
        · rw [hx1] at hj; exact absurd hj (by simp)
        · exact absurd hj (by simp [Event.iter])
      · intro e he hs
        rw [htr] at he
        simp only [List.mem_append, List.mem_cons, List.mem_singleton, List.not_mem_nil,
          or_false] at he
        rcases he with h | rfl | rfl
        · rw [(accessEvents_props a offs val i e h).2.1] at hs
          exact absurd hs (by simp)
        · rw [hx2] at hs; exact absurd hs (by simp)
        · exact absurd hs (by simp [Event.isSleep])
    · -- iteration i passes all checks: the width is not 32 and k lies further on
      obtain ⟨hw, hr⟩ := hpass
      obtain ⟨hrrc, hcmp⟩ := hr hrb
      have hwidth : a.width ≠ 32 := by
        intro h32
        have hrbv := hinv h32
        rw [readBack, if_neg hrb, if_pos h32, hrbv] at hcmp
        exact store32_not_ne env.bigEndian val _ hval hcmp
      have hcmp64 : val = (env.reply i).rdata % 2 ^ 64 := by
        rw [readBack, if_neg hrb, if_neg hwidth] at hcmp
        exact hcmp
      have hik : i ≠ k := by
        intro hik
        subst hik
        rcases hfail with h | h | h
        · exact h hw
        · exact h hrrc
        · exact h hwidth hcmp64.symm
      have hlt : i < k := by omega
      have hrec : ∃ e ∈ (loop a env offs val n (i + 1) (readBack a env rb (env.reply i))).trace,
          e.iter = some k := by
        rw [heq] at he0
        simp only [Result.after, List.mem_append] at he0
        rcases he0 with (h | h) | h
        · rcases (accessEvents_props a offs val i e0 h).1 with h0 | h0
          · rw [h0] at hk0; exact absurd hk0 (by simp)
          · rw [h0] at hk0; exact absurd (Option.some.inj hk0) hik
        · split_ifs at h
          · simp only [List.mem_singleton] at h
            subst h
            exact absurd (Option.some.inj hk0) hik
          · simp at h
        · exact ⟨e0, h, hk0⟩
      have hih := ih (i + 1) (readBack a env rb (env.reply i))
        (fun h32 => absurd h32 hwidth) hrec
      rw [heq]
      refine ⟨hih.1, ?_, ?_⟩
      · intro e he j hj
        simp only [Result.after, List.mem_append] at he
        rcases he with (h | h) | h
        · rcases (accessEvents_props a offs val i e h).1 with h0 | h0
          · rw [h0] at hj; exact absurd hj (by simp)
          · rw [h0] at hj
            have : i = j := Option.some.inj hj
            omega
        · split_ifs at h
          · simp only [List.mem_singleton] at h
            subst h
            have : i = j := Option.some.inj hj
            omega
          · simp at h
        · exact hih.2.1 e h j hj
      · intro e he hs
        simp only [Result.after, List.mem_append] at he
        rcases he with (h | h) | h
        · rw [(accessEvents_props a offs val i e h).2.1] at hs
          exact absurd hs (by simp)
        · split_ifs at h
          · simp only [List.mem_singleton] at h
            subst h
            intro hc
            exact hik (Option.some.inj hc)
          · simp at h
        · exact hih.2.2 e h hs

theorem accessEvents_filter (a : Args) (i : Nat) :
    (accessEvents a (a.addr % 2 ^ 32) (a.value % 2 ^ 64) i).filter
        (fun e => e.isWrite || e.isSleep) =
      [if a.width = 32 then Event.write32 i (a.addr % 2 ^ 32) (a.value % 2 ^ 64 % 2 ^ 32)
       else Event.write64 i (a.addr % 2 ^ 32) (a.value % 2 ^ 64)] ∧
    ((accessEvents a (a.addr % 2 ^ 32) (a.value % 2 ^ 64) i).filter
        (fun e => e.isWrite)).length = 1 ∧
    ((accessEvents a (a.addr % 2 ^ 32) (a.value % 2 ^ 64) i).filter
        (fun e => e.isRead)).length = (if a.rd_back ≠ 0 then 1 else 0) := by
  unfold accessEvents
  by_cases hw : a.width = 32 <;> by_cases hr : a.rd_back = 0 <;>
    simp [hw, hr, List.filter, Event.isWrite, Event.isSleep, Event.isRead]

end Poke

/-! ## Register poke tool: claims -/

namespace Poke

/-- The three ways `main` can go after option parsing: rejected card number,
card that does not open, or the loop. -/
theorem main_cases (a : Args) (env : Env) :
    ((a.card_no < 0 ∨ a.card_no > 4) ∧
      main a env = { trace := [Event.switch_cpu a.cpu env.verbose_flag,
                               Event.err_invalid_card a.card_no, Event.usage],
                     status := EXIT_FAILURE }) ∨
    ((0 ≤ a.card_no ∧ a.card_no ≤ 4) ∧ env.card_ok = false ∧
      main a env = { trace := [Event.switch_cpu a.cpu env.verbose_flag,
                               Event.card_alloc_dev (deviceName a.card_no),
                               Event.err_open_card a.card_no],
                     status := EXIT_FAILURE }) ∨
    ((0 ≤ a.card_no ∧ a.card_no ≤ 4) ∧ env.card_ok = true ∧
      main a env = Result.after [Event.switch_cpu a.cpu env.verbose_flag,
                                 Event.card_alloc_dev (deviceName a.card_no)]
        (loop a env (a.addr % 2 ^ 32) (a.value % 2 ^ 64) a.count 0 (rbvalAt a env 0))) := by
  by_cases hc : a.card_no < 0 ∨ a.card_no > 4
  · left
    refine ⟨hc, ?_⟩
    unfold main
    simp only [if_pos hc]
    rfl
  · right
    have hr : 0 ≤ a.card_no ∧ a.card_no ≤ 4 := by omega
    cases ho : env.card_ok
    · left
      refine ⟨hr, rfl, ?_⟩
      unfold main
      simp only [if_neg hc, ho, if_true]
      rfl
    · right
      refine ⟨hr, rfl, ?_⟩
      unfold main
      simp only [if_neg hc, ho]
      rfl

/-- C2: with read-back requested, whenever the loop reaches iteration `k` and in it
the register write returns non-zero, the register read returns non-zero, or the word
read back differs from the word written, the run ends in iteration `k` with status
`EXIT_FAILURE`: nothing is issued for a later index and iteration `k` does not sleep. -/
theorem C2_failure_ends_run (a : Args) (env : Env) (k : Nat)
    (hrb : a.rd_back ≠ 0)
    (hreach : ∃ e ∈ (main a env).trace, e.iter = some k)
    (hfail : (env.reply k).wrc ≠ 0 ∨ (env.reply k).rrc ≠ 0 ∨
      readWord a (env.reply k) ≠ writtenWord a) :
    (main a env).status = EXIT_FAILURE ∧ (main a env).status ≠ 0 ∧
      (∀ e ∈ (main a env).trace, ∀ j, e.iter = some j → j ≤ k) ∧
      (∀ e ∈ (main a env).trace, e.isSleep = true → e.iter ≠ some k) := by
  have hfail2 : (env.reply k).wrc ≠ 0 ∨ (env.reply k).rrc ≠ 0 ∨
      (a.width ≠ 32 → (env.reply k).rdata % 2 ^ 64 ≠ a.value % 2 ^ 64) := by
    rcases hfail with h | h | h
    · exact Or.inl h
    · exact Or.inr (Or.inl h)
    · refine Or.inr (Or.inr ?_)
      intro hw
      rw [readWord, writtenWord, if_neg hw, if_neg hw] at h
      exact h
  obtain ⟨e0, he0, hk0⟩ := hreach
  rcases main_cases a env with ⟨_, heq⟩ | ⟨_, _, heq⟩ | ⟨_, _, heq⟩
  · rw [heq] at he0
    simp only [List.mem_cons, List.mem_singleton, List.not_mem_nil, or_false] at he0
    rcases he0 with rfl | rfl | rfl <;> exact absurd hk0 (by simp [Event.iter])
  · rw [heq] at he0
    simp only [List.mem_cons, List.mem_singleton, List.not_mem_nil, or_false] at he0
    rcases he0 with rfl | rfl | rfl <;> exact absurd hk0 (by simp [Event.iter])
  · have hloop : ∃ e ∈ (loop a env (a.addr % 2 ^ 32) (a.value % 2 ^ 64) a.count 0
        (rbvalAt a env 0)).trace, e.iter = some k := by
      rw [heq] at he0
      simp only [Result.after, List.mem_append, List.mem_cons, List.mem_singleton,
        List.not_mem_nil, or_false] at he0
      rcases he0 with (rfl | rfl) | h
      · exact absurd hk0 (by simp [Event.iter])
      · exact absurd hk0 (by simp [Event.iter])
      · exact ⟨e0, h, hk0⟩
    have hstop := loop_failure_stops a env (a.addr % 2 ^ 32) (a.value % 2 ^ 64)
      (Nat.mod_lt _ (by norm_num)) hrb k hfail2 a.count 0 (rbvalAt a env 0)
      (fun _ => rfl) hloop
    rw [heq]
    refine ⟨hstop.1, ?_, ?_, ?_⟩
    · show (loop a env (a.addr % 2 ^ 32) (a.value % 2 ^ 64) a.count 0
        (rbvalAt a env 0)).status ≠ 0
      rw [hstop.1]
      decide
    · intro e he j hj
      simp only [Result.after, List.mem_append, List.mem_cons, List.mem_singleton,
        List.not_mem_nil, or_false] at he
      rcases he with (rfl | rfl) | h
      · exact absurd hj (by simp [Event.iter])
      · exact absurd hj (by simp [Event.iter])
      · exact hstop.2.1 e h j hj
    · intro e he hs
      simp only [Result.after, List.mem_append, List.mem_cons, List.mem_singleton,
        List.not_mem_nil, or_false] at he
      rcases he with (rfl | rfl) | h
      · exact absurd hs (by simp [Event.isSleep])
      · exact absurd hs (by simp [Event.isSleep])
      · exact hstop.2.2 e h hs

/-- C2, instance: width 64, three iterations requested, the read of iteration 1
delivers a wrong word; the run stops there with status 1. -/
theorem C2_failure_ends_run_witness :
    wideArgs.rd_back ≠ 0 ∧
    Event.write64 1 0x100 0xdeadbeef ∈ (main wideArgs (glitchEnv 0xdeadbeef)).trace ∧
    readWord wideArgs ((glitchEnv 0xdeadbeef).reply 1) ≠ writtenWord wideArgs ∧
    (main wideArgs (glitchEnv 0xdeadbeef)).status = EXIT_FAILURE ∧
    (∀ e ∈ (main wideArgs (glitchEnv 0xdeadbeef)).trace, ∀ j, e.iter = some j → j ≤ 1) :=
  have h := C2_failure_ends_run wideArgs (glitchEnv 0xdeadbeef) 1 (by decide)
    ⟨Event.write64 1 0x100 0xdeadbeef, by decide, rfl⟩ (Or.inr (Or.inr (by decide)))
  ⟨by decide, by decide, by decide, h.1, h.2.2.1⟩

/-- With width 32 and read-back, the first iteration always ends the run with
`EXIT_FAILURE`, whatever the card returns: the 64-bit compare of line 218 sees the
half of `rbval` that the 4-byte read leaves at its initial value `~val`. -/
theorem width32_read_back_always_fails (a : Args) (env : Env)
    (hcard : 0 ≤ a.card_no ∧ a.card_no ≤ 4) (hopen : env.card_ok = true)
    (hw : a.width = 32) (hrb : a.rd_back ≠ 0) (hcount : 0 < a.count) :
    (main a env).status = EXIT_FAILURE ∧
      ((main a env).trace.filter (fun e => e.isWrite)).length = 1 := by
  obtain ⟨n, hn⟩ : ∃ n, a.count = n + 1 := ⟨a.count - 1, by omega⟩
  rcases main_cases a env with ⟨hbad, _⟩ | ⟨_, hno, _⟩ | ⟨_, _, heq⟩
  · omega
  · rw [hopen] at hno; exact absurd hno (by simp)
  · rw [heq, hn]
    rcases loop_succ_cases a env (a.addr % 2 ^ 32) (a.value % 2 ^ 64) n 0 (rbvalAt a env 0) with
      ⟨_, hst, x, _, _, _, hxw, htr⟩ | ⟨hpass, _⟩
    · refine ⟨hst, ?_⟩
      have hacc := (accessEvents_filter a 0).2.1
      simp only [Result.after, htr, List.filter_append, List.length_append, hacc]
      simp only [List.filter, hxw]
      simp [Event.isWrite]
    · exfalso
      have hcmp := (hpass.2 hrb).2
      rw [readBack, if_neg hrb, if_pos hw] at hcmp
      exact store32_not_ne env.bigEndian (a.value % 2 ^ 64) _ (Nat.mod_lt _ (by norm_num)) hcmp

/-- C4 (code evaluated at the failing input): `-w 32 -c 3 -i 0 -r 0x100 0xdeadbeef`
against a healthy card performs one write and one read, fails the compare of
`0x00000000deadbeef` with `rbval`, frees the card and exits with status 1 without
printing the final line; this holds for either byte order of the host. -/
theorem C4_scenario_fails_first_compare :
    main scenarioArgs (healthyEnv false 0xdeadbeef) =
      { trace := [Event.switch_cpu (-1) 0, Event.card_alloc_dev "IBM,oc-accel",
                  Event.write32 0 0x100 0xdeadbeef, Event.read32 0 0x100,
                  Event.err_post_verify 0xdeadbeef 0xffffffffdeadbeef, Event.card_free],
        status := 1 } ∧
    main scenarioArgs (healthyEnv true 0xdeadbeef) =
      { trace := [Event.switch_cpu (-1) 0, Event.card_alloc_dev "IBM,oc-accel",
                  Event.write32 0 0x100 0xdeadbeef, Event.read32 0 0x100,
                  Event.err_post_verify 0xdeadbeef 0xdeadbeef21524110, Event.card_free],
        status := 1 } := by
  decide

/-- C6: a card number below 0 or above 4 makes the run exit with `EXIT_FAILURE`
(which is not 0) without any card-open call; a card number in 0..4 makes the run
issue the card-open call. -/
theorem C6_card_number_range (a : Args) (env : Env) :
    ((a.card_no < 0 ∨ a.card_no > 4) →
      (main a env).status = EXIT_FAILURE ∧ (main a env).status ≠ 0 ∧
      ∀ e ∈ (main a env).trace, e.isCardOpen = false) ∧
    ((0 ≤ a.card_no ∧ a.card_no ≤ 4) →
      Event.card_alloc_dev (deviceName a.card_no) ∈ (main a env).trace) := by
  constructor
  · intro hbad
    rcases main_cases a env with ⟨_, heq⟩ | ⟨hr, _, _⟩ | ⟨hr, _, _⟩
    · rw [heq]
      refine ⟨rfl, (by decide : EXIT_FAILURE ≠ 0), ?_⟩
      intro e he
      simp only [List.mem_cons, List.mem_singleton, List.not_mem_nil, or_false] at he
      rcases he with rfl | rfl | rfl <;> rfl
    · omega
    · omega
  · intro hr
    rcases main_cases a env with ⟨hbad, _⟩ | ⟨_, _, heq⟩ | ⟨_, _, heq⟩
    · omega
    · rw [heq]; simp
    · rw [heq]; simp [Result.after]

/-- C6, instances: card number 5 is rejected before any card-open call, card
number 4 reaches the card-open call. -/
theorem C6_card_number_range_witness :
    (main { scenarioArgs with card_no := 5 } (healthyEnv false 0)).status = EXIT_FAILURE ∧
    Event.card_alloc_dev "/dev/ocxl/IBM,oc-accel.0004:00:00.1.0" ∈
      (main { scenarioArgs with card_no := 4 } (healthyEnv false 0)).trace :=
  ⟨((C6_card_number_range { scenarioArgs with card_no := 5 } (healthyEnv false 0)).1
      (by decide)).1,
   (C6_card_number_range { scenarioArgs with card_no := 4 } (healthyEnv false 0)).2
      (by decide)⟩

end Poke

/-! ## Device strings of both tools -/

